import Mathlib

/-!
Shallow embedding of the wallet-bot balance monitor (check_balances.go)
and proofs about its per-wallet monitoring state machine: the RPC
failure-streak counter, the balance threshold-crossing edge trigger, the
configuration hot-reload merge, and the balance extraction/parsing layer.

Conventions of the embedding:
* Go `float64` configuration values and parsed balances are modelled as
  exact rationals; `strconv.ParseFloat` on the decimal-integer amount
  strings produced by the chain sources is modelled by an explicit
  IEEE-754 binary64 round-to-nearest-even rounding of the decoded
  integer (`roundF64`), so double-precision collapse is visible.
* Go runtime panics (integer division by zero, nil-pointer dereference)
  are modelled by the `GoResult.panic` constructor: a panicking execution
  produces no result.
* External I/O (HTTP fetches, JSON unmarshalling) is modelled by small
  outcome datatypes carrying exactly the information the code inspects.
-/

namespace WalletBot

/-! ### Decimal and hexadecimal digit strings -/

/-- Character for the decimal digit `d` (`'0'`..`'9'` for `d < 10`). -/
def digitChar (d : Nat) : Char := Char.ofNat (48 + d)

/-- Decimal digit denoted by `c`, if any. -/
def charToDigit (c : Char) : Option Nat :=
  if 48 ≤ c.toNat ∧ c.toNat ≤ 57 then some (c.toNat - 48) else none

/-- Accumulating base-10 evaluation of a big-endian character list. -/
def decGo : List Char → Nat → Option Nat
  | [], acc => some acc
  | c :: cs, acc =>
    match charToDigit c with
    | none => none
    | some d => decGo cs (acc * 10 + d)

/-- Exact value of a non-empty string of decimal digits.  This is the
integer denoted by the base-10 integer-string representation that the
fetch layer produces (`big.Int.String` on the Ethereum side, the
`amount` field of the Cosmos bank response on the Cosmos side). -/
def parseDecNat (s : String) : Option Nat :=
  match s.data with
  | [] => none
  | c :: cs => decGo (c :: cs) 0

/-- Little-endian base-10 digits of `n`, with an explicit structural
fuel so that the definition evaluates inside the kernel. -/
def decDigitsAux : Nat → Nat → List Nat
  | 0, _ => []
  | fuel + 1, n => if n = 0 then [] else n % 10 :: decDigitsAux fuel (n / 10)

/-- Base-10 string of a natural number, mirroring `big.Int.String` for
non-negative values (`0` prints as "0"). -/
def natToDecStr (n : Nat) : String :=
  ⟨if n = 0 then ['0'] else ((decDigitsAux (n + 1) n).reverse.map digitChar)⟩

/-- Hexadecimal digit denoted by `c`, if any. -/
def hexDigit (c : Char) : Option Nat :=
  if 48 ≤ c.toNat ∧ c.toNat ≤ 57 then some (c.toNat - 48)
  else if 97 ≤ c.toNat ∧ c.toNat ≤ 102 then some (c.toNat - 87)
  else if 65 ≤ c.toNat ∧ c.toNat ≤ 70 then some (c.toNat - 55)
  else none

/-- Accumulating base-16 evaluation of a big-endian character list. -/
def hexGo : List Char → Nat → Option Nat
  | [], acc => some acc
  | c :: cs, acc =>
    match hexDigit c with
    | none => none
    | some d => hexGo cs (acc * 16 + d)

/-- Value of a non-empty all-hex-digit character list, mirroring
`big.Int.SetString(s, 16)` on the unsigned results returned by
`eth_getBalance` (an empty or malformed string makes `SetString` fail). -/
def hexFromChars (cs : List Char) : Option Nat :=
  match cs with
  | [] => none
  | c :: rest => hexGo (c :: rest) 0

/-- Translation of `strings.TrimPrefix(s, "0x")` acting on the
character list of `s`. -/
def trimHexMark (cs : List Char) : List Char :=
  match cs with
  | '0' :: 'x' :: rest => rest
  | other => other

/-! ### IEEE-754 binary64 rounding of integer balances -/

/-- Number of halvings needed to bring `m` under `2^53`; the fuel of
1024 covers every value below `2^1077`, far beyond any finite double.
This is the exponent of the unit in the last place of `m` as a
binary64 value. -/
def ulpExpAux : Nat → Nat → Nat
  | 0, _ => 0
  | fuel + 1, m => if m < 2 ^ 53 then 0 else ulpExpAux fuel (m / 2) + 1

/-- Exponent of the ulp of `n` viewed as a binary64 value. -/
def ulpExp (n : Nat) : Nat := ulpExpAux 1024 n

/-- Nearest binary64-representable integer to `n` (round to nearest,
ties to even), for `n` in the finite range of doubles.  Models the value
that `strconv.ParseFloat` stores in a `float64` for the decimal string
of `n`. -/
def roundF64 (n : Nat) : Nat :=
  let u := 2 ^ ulpExp n
  let q := n / u
  let r := n % u
  if 2 * r < u then q * u
  else if u < 2 * r then (q + 1) * u
  else if q % 2 = 0 then q * u else (q + 1) * u

/-- Modelled from the code's use of `strconv.ParseFloat(amount, 64)`:
the chain sources only ever produce unsigned decimal-integer amount
strings, and on those `ParseFloat` decodes the integer and rounds it to
the nearest binary64 value.  (Signs, fractional parts, exponents and
the overflow-to-infinity range of `ParseFloat` never occur on this
code path and are outside the model.) -/
def parseFloat64 (s : String) : Option ℚ :=
  (parseDecNat s).map (fun n => ((roundF64 n : Nat) : ℚ))

/-! ### Data model (structs of check_balances.go) -/

/-- One (denom, amount) entry of a balance response. -/
structure Response where
  denom : String
  amount : String
deriving DecidableEq

/-- A balance response: list of (denom, amount) entries. -/
structure Responses where
  balances : List Response
deriving DecidableEq

/-- An account (wallet) record: configuration fields plus the runtime
fields `rpc_down` (consecutive failed RPC requests) and `down`
(balance currently below threshold). -/
structure Account where
  address : String
  purpose : String
  balance_threshold : ℚ
  rpc_down : Int
  down : Bool
deriving DecidableEq

/-- A network record. -/
structure Network where
  name : String
  type : String
  rpcUrl : String
  accounts : List Account
  numerator : ℚ
  bad_request_threshold : ℚ
  denom : String
  coingecko_name : String
deriving DecidableEq

/-- The top-level configuration: the list of monitored networks. -/
structure Networks where
  network : List Network
deriving DecidableEq

/-- Outcome of one chain fetch as seen by `main`: either a non-nil
error, or a (non-nil) response. -/
inductive FetchResult where
  | fail
  | ok (r : Responses)
deriving DecidableEq

/-- Alert messages sent to the Slack webhooks. -/
inductive Alert where
  | rpcBad
  | rpcGood
  | balLow
  | balGood
deriving DecidableEq

/-- Errors returned by `parseBalanceResponse`: the amount string failed
to parse (`malformed`), or no entry matched the network denom
(`mismatch`). -/
inductive ParseErr where
  | malformed
  | mismatch
deriving DecidableEq

/-- Go runtime panics reachable in the monitored code. -/
inductive GoPanic where
  | divideByZero
  | nilDereference
deriving DecidableEq

/-- Result of running a piece of Go code: a value, or a runtime panic. -/
inductive GoResult (α : Type) where
  | panic (p : GoPanic)
  | ok (a : α)
deriving DecidableEq

/-- Truncation toward zero, as Go's `int(x)` conversion of a float. -/
def goTrunc (q : ℚ) : Int :=
  if 0 ≤ q then ⌊q⌋ else ⌈q⌉

/-- Translation of line 108: `THRESHOLD = int(Bad_request_threshold/INTERVAL)`,
the per-network count of consecutive failed cycles before an RPC alert. -/
def THRESHOLDof (bad_request_threshold INTERVAL : ℚ) : Int :=
  goTrunc (bad_request_threshold / INTERVAL)

/-! ### The monitoring logic (functions of check_balances.go) -/

/-- Translation of `check_rpc_health` (lines 213–217): alert when the
consecutive-failure counter is a non-zero multiple of `THRESHOLD`.
Go's `%` on ints is truncated modulus (`Int.tmod`) and panics when the
divisor is zero. -/
def check_rpc_health (threshold : Int) (rpc_down : Int) : GoResult Bool :=
  if threshold = 0 then .panic .divideByZero
  else .ok (decide (Int.tmod rpc_down threshold = 0 ∧ rpc_down ≠ 0))

/-- Loop body of `parseBalanceResponse` (lines 478–487), with the
floating-point conversion abstracted as `parse`.  On a matching entry
whose amount fails to parse the function returns immediately with a
zero balance, a `malformed` error, and the `resultGood` flag
accumulated so far; on a matching parse it keeps scanning, so the last
matching entry wins. -/
def parseGo (parse : String → Option ℚ) (denom : String) :
    List Response → ℚ → Bool → ℚ × Option ParseErr × Bool
  | [], balance, resultGood =>
    if resultGood then (balance, none, resultGood)
    else (0, some ParseErr.mismatch, resultGood)
  | r :: rest, balance, resultGood =>
    if r.denom = denom then
      match parse r.amount with
      | none => (0, some ParseErr.malformed, resultGood)
      | some b => parseGo parse denom rest b true
    else parseGo parse denom rest balance resultGood

/-- Translation of `parseBalanceResponse` (lines 473–494): scan the
response entries for the network denom, starting from a zero balance
and `resultGood = false`. -/
def parseBalanceResponse (parse : String → Option ℚ) (responses : Responses)
    (network : Network) : ℚ × Option ParseErr × Bool :=
  parseGo parse network.denom responses.balances 0 false

/-- Translation of the fetch dispatch in `main` (lines 110–118): the
`if`/`else if` on the network type selects the Ethereum or Cosmos
fetch; any other type leaves `responses` nil and `err` nil.  Returns
(the possibly-nil `responses` pointer, whether `err != nil`). -/
def dispatchFetch (netType : String) (eth cos : FetchResult) :
    Option Responses × Bool :=
  if netType = "ethereum" then
    match eth with
    | .fail => (none, true)
    | .ok r => (some r, false)
  else if netType = "cosmos" then
    match cos with
    | .fail => (none, true)
    | .ok r => (some r, false)
  else (none, false)

/-- Translation of the failure path of `main` (lines 121–130 and
136–142): increment `RPC_down`, call `check_rpc_health`, continue with
the next account. -/
def failBranch (threshold : Int) (acct : Account) :
    GoResult (Account × List Alert) :=
  let acct1 : Account := { acct with rpc_down := acct.rpc_down + 1 }
  match check_rpc_health threshold acct1.rpc_down with
  | .panic p => .panic p
  | .ok b => .ok (acct1, if b then [Alert.rpcBad] else [])

/-- Translation of the balance alert block of `main` (lines 148–168):
given the parsed balance, the account threshold and the current `Down`
flag, produce the new flag and the emitted balance alerts.  A low
balance alerts only on the `Above → Below` edge; a recovery alerts only
when the balance is strictly above the threshold and the flag was set. -/
def balanceAlertStep (balance threshold : ℚ) (down : Bool) : Bool × List Alert :=
  if balance < threshold then
    if down = false then (true, [Alert.balLow]) else (down, [])
  else if threshold < balance ∧ down = true then (false, [Alert.balGood])
  else (down, [])

/-- Translation of one iteration of the per-account loop of `main`
(lines 109–171) for one account of one network: dispatch the fetch by
network type; on a fetch error or an extraction error take the failure
path; otherwise emit the RPC-recovery alert when the streak had reached
the threshold, run the balance alert block, and reset the
consecutive-failure counter to zero (line 170).  Passing a nil
`responses` into `parseBalanceResponse` dereferences nil and panics. -/
def walletCycle (parse : String → Option ℚ) (threshold : Int) (net : Network)
    (acct : Account) (eth cos : FetchResult) : GoResult (Account × List Alert) :=
  let rb := dispatchFetch net.type eth cos
  if rb.2 then failBranch threshold acct
  else
    match rb.1 with
    | none => .panic .nilDereference
    | some rs =>
      let pr := parseBalanceResponse parse rs net
      match pr.2.1 with
      | some _ => failBranch threshold acct
      | none =>
        let stage1 : Account × List Alert :=
          if threshold ≤ acct.rpc_down then
            ({ acct with rpc_down := 0 }, [Alert.rpcGood])
          else (acct, [])
        let bal := balanceAlertStep pr.1 acct.balance_threshold stage1.1.down
        .ok ({ stage1.1 with rpc_down := 0, down := bal.1 }, stage1.2 ++ bal.2)

/-- Run of several consecutive cycles of `walletCycle` on one account,
feeding each cycle's updated account into the next; the Ethereum leg of
the dispatch is fed `.fail` (it is ignored unless the network type is
"ethereum").  Returns the final account and the per-cycle alert lists. -/
def runWallet (parse : String → Option ℚ) (threshold : Int) (net : Network)
    (acct : Account) : List FetchResult → GoResult (Account × List (List Alert))
  | [] => .ok (acct, [])
  | f :: fs =>
    match walletCycle parse threshold net acct .fail f with
    | .panic p => .panic p
    | .ok (acct1, al) =>
      match runWallet parse threshold net acct1 fs with
      | .panic p => .panic p
      | .ok (acct2, rest) => .ok (acct2, al :: rest)

/-- Fold of the balance alert block over a list of validated balances,
tracking the `Down` flag across cycles. -/
def runBalanceAlerts (threshold : ℚ) : Bool → List ℚ → Bool × List (List Alert)
  | down, [] => (down, [])
  | down, b :: bs =>
    let step := balanceAlertStep b threshold down
    let rest := runBalanceAlerts threshold step.1 bs
    (rest.1, step.2 :: rest.2)

/-- The stream of balance alerts alternates with the tracked state: from
`Above` (flag false) the next alert can only be a low-funds alert, from
`Below` (flag true) only a replenished alert.  This is the shape of an
edge-triggered alert stream. -/
def Alternates : Bool → List Alert → Prop
  | _, [] => True
  | false, Alert.balLow :: rest => Alternates true rest
  | true, Alert.balGood :: rest => Alternates false rest
  | _, _ => False

/-! ### Ethereum fetch (getEthereumBalance, lines 404–442) -/

/-- The error object of an Ethereum JSON-RPC response. -/
structure EthRPCError where
  code : Int
  message : String
deriving DecidableEq

/-- The fields of an Ethereum JSON-RPC response that the code reads. -/
structure EthRPCResponse where
  id : Int
  result : String
  error : Option EthRPCError
deriving DecidableEq

/-- Outcome of the HTTP POST performed by `getEthereumBalance`, as seen
by the code after the call: a transport error from `http.Post`, a body
read error, or a response with its HTTP status and the result of
`json.Unmarshal` on its body (`none` when the body is not valid JSON
for the expected shape). -/
inductive EthHttpOutcome where
  | postErr
  | readErr
  | body (status : Nat) (unmarshal : Option EthRPCResponse)
deriving DecidableEq

/-- Translation of the response handling of `getEthereumBalance` (lines
416–441): transport, read and unmarshal errors are returned as errors
(`none` here); otherwise the code strips an optional "0x", feeds the
rest to `big.Int.SetString(·, 16)` — whose failure leaves the fresh
`big.Int` at zero — and returns a single-entry response with denom
"wei", without ever inspecting the HTTP status or the `error` field of
the RPC payload. -/
def getEthereumBalance (o : EthHttpOutcome) : Option Responses :=
  match o with
  | .postErr => none
  | .readErr => none
  | .body _ none => none
  | .body _ (some r) =>
    let hexStr := trimHexMark r.result.data
    let amount :=
      match hexFromChars hexStr with
      | some n => natToDecStr n
      | none => "0"
    some ⟨[⟨"wei", amount⟩]⟩

/-! ### Config hot-reload merge (checkConfigUpdates, lines 194–203) -/

/-- Runtime-state copy of the reload merge: the incoming account keeps
all its configuration fields and receives `down` and `rpc_down` from
the previous account at the same position. -/
def setRuntime (prev inc : Account) : Account :=
  { inc with down := prev.down, rpc_down := prev.rpc_down }

/-- Positional account merge: for each incoming account, copy the
runtime fields from the previous account at the same index; when the
incoming list is longer, the Go code indexes past the end of the
previous slice and panics. -/
def copyAccounts : List Account → List Account → Option (List Account)
  | _, [] => some []
  | [], _ :: _ => none
  | p :: ps, a :: rest =>
    (copyAccounts ps rest).map (fun tail => setRuntime p a :: tail)

/-- Positional network merge: for each incoming network, merge its
account list against the previous network at the same index.  An
incoming network beyond the end of the previous list only panics if it
has at least one account (the out-of-range index is evaluated inside
the inner loop body). -/
def copyNetworks : List Network → List Network → Option (List Network)
  | _, [] => some []
  | p :: ps, n :: ns =>
    match copyAccounts p.accounts n.accounts with
    | none => none
    | some accs =>
      (copyNetworks ps ns).map (fun tail => { n with accounts := accs } :: tail)
  | [], n :: ns =>
    if n.accounts = [] then (copyNetworks [] ns).map (fun tail => n :: tail)
    else none

/-- Translation of `checkConfigUpdates` (lines 194–203): re-read the
configuration (the incoming snapshot), copy the runtime fields `Down`
and `RPC_down` positionally from the current snapshot into it, and
replace the current snapshot with the result.  `none` models the index
out-of-range panic. -/
def checkConfigUpdates (current incoming : Networks) : Option Networks :=
  (copyNetworks current.network incoming.network).map Networks.mk

/-- Expected result of the merge on one network when no index is out of
range: incoming configuration with positionally copied runtime state. -/
def mergeNet (prev inc : Network) : Network :=
  { inc with accounts := List.zipWith setRuntime prev.accounts inc.accounts }

/-! ### Concrete fixtures used by witnesses and counterexamples -/

/-- A concrete Cosmos network. -/
def cNet : Network :=
  ⟨"cosmoshub", "cosmos", "https://rest.cosmos.directory/cosmoshub", [],
    1, 24, "uatom", "cosmos"⟩

/-- A concrete account in the `Above` state with a clean failure streak. -/
def cAcct : Account := ⟨"cosmos1abc", "relayer", 2000000, 0, false⟩

/-- The same account already in the `Below` state. -/
def cAcctBelow : Account := ⟨"cosmos1abc", "relayer", 2000000, 0, true⟩

/-- Final consecutive-failure counter of a cycle result, when the cycle
did not panic. -/
def rpcDownOf : GoResult (Account × List Alert) → Option Int
  | .panic _ => none
  | .ok (a, _) => some a.rpc_down

/-- Alert lists produced by a run of consecutive failed cycles starting
from a counter value of `rpc`: the `i`-th cycle of the run alerts
exactly when the counter it reaches is a non-zero multiple of `k`. -/
def expectedFailAlerts (k : Int) : Int → Nat → List (List Alert)
  | _, 0 => []
  | rpc, n + 1 =>
    (if (rpc + 1) % k = 0 then [Alert.rpcBad] else [])
      :: expectedFailAlerts k (rpc + 1) n

/-! ### Lemmas about the failure-streak machine -/

theorem dispatchFetch_cosmos_fail (eth : FetchResult) :
    dispatchFetch "cosmos" eth .fail = (none, true) := rfl

theorem dispatchFetch_cosmos_ok (eth : FetchResult) (r : Responses) :
    dispatchFetch "cosmos" eth (.ok r) = (some r, false) := rfl

theorem failBranch_eq (k : Int) (hk : 0 < k) (acct : Account)
    (h0 : 0 ≤ acct.rpc_down) :
    failBranch k acct
      = .ok ({ acct with rpc_down := acct.rpc_down + 1 },
          if (acct.rpc_down + 1) % k = 0 then [Alert.rpcBad] else []) := by
  have hk0 : k ≠ 0 := by omega
  have h1 : acct.rpc_down + 1 ≠ 0 := by omega
  have h2 : Int.tmod (acct.rpc_down + 1) k = (acct.rpc_down + 1) % k :=
    Int.tmod_eq_emod (by omega) (by omega)
  simp only [failBranch, check_rpc_health, hk0, if_false, ite_false, if_neg hk0]
  simp [h2, h1]

theorem walletCycle_fail (parse : String → Option ℚ) (k : Int) (hk : 0 < k)
    (net : Network) (hnet : net.type = "cosmos") (acct : Account)
    (h0 : 0 ≤ acct.rpc_down) :
    walletCycle parse k net acct .fail .fail
      = .ok ({ acct with rpc_down := acct.rpc_down + 1 },
          if (acct.rpc_down + 1) % k = 0 then [Alert.rpcBad] else []) := by
  simp only [walletCycle, hnet, dispatchFetch_cosmos_fail, if_true,
    failBranch_eq k hk acct h0]

theorem runWallet_replicate_fail (parse : String → Option ℚ) (k : Int)
    (hk : 0 < k) (net : Network) (hnet : net.type = "cosmos") :
    ∀ (n : Nat) (acct : Account), 0 ≤ acct.rpc_down →
      runWallet parse k net acct (List.replicate n .fail)
        = .ok ({ acct with rpc_down := acct.rpc_down + n },
            expectedFailAlerts k acct.rpc_down n) := by
  intro n
  induction n with
  | zero =>
    intro acct h0
    simp only [List.replicate, runWallet, expectedFailAlerts, Nat.cast_zero, add_zero]
  | succ m ih =>
    intro acct h0
    rw [List.replicate_succ]
    simp only [runWallet]
    rw [walletCycle_fail parse k hk net hnet acct h0]
    have h1 : (0 : Int) ≤ ({ acct with rpc_down := acct.rpc_down + 1 } : Account).rpc_down := by
      simp; omega
    dsimp only
    rw [ih { acct with rpc_down := acct.rpc_down + 1 } h1]
    dsimp only
    simp only [expectedFailAlerts]
    have h2 : acct.rpc_down + 1 + (m : Int) = acct.rpc_down + ((m : Nat) + 1 : Nat) := by
      push_cast; ring
    rw [h2]

theorem expectedFailAlerts_getElem (k : Int) :
    ∀ (n : Nat) (rpc : Int) (i : Nat), i < n →
      (expectedFailAlerts k rpc n)[i]?
        = some (if (rpc + i + 1) % k = 0 then [Alert.rpcBad] else []) := by
  intro n
  induction n with
  | zero => intro rpc i hi; omega
  | succ m ih =>
    intro rpc i hi
    cases i with
    | zero => simp [expectedFailAlerts]
    | succ j =>
      have hj : j < m := by omega
      simp only [expectedFailAlerts, List.getElem?_cons_succ]
      rw [ih (rpc + 1) j hj]
      have h2 : rpc + 1 + (j : Int) + 1 = rpc + ((j : Nat) + 1 : Nat) + 1 := by
        push_cast; ring
      rw [h2]

theorem walletCycle_success_resets (parse : String → Option ℚ) (k : Int)
    (net : Network) (hnet : net.type = "cosmos") (acct : Account)
    (s : String) (b : ℚ) (hs : parse s = some b) :
    rpcDownOf (walletCycle parse k net acct .fail (.ok ⟨[⟨net.denom, s⟩]⟩))
      = some 0 := by
  simp only [walletCycle, hnet, dispatchFetch_cosmos_ok, parseBalanceResponse,
    parseGo, hs]
  simp [rpcDownOf]

/-- C1: for a per-network threshold `k > 0`, a run of `n` consecutive
failed cycles from a clean counter drives the counter to `n`, the `i`-th
cycle of the run fires an RPC alert exactly when `(i + 1) mod k = 0`
(cycle numbers start at 1, so the counter is never 0 at the check), and
one fully successful fetch-and-extract cycle resets the counter to 0
from any state. -/
theorem c1_health_alert_periodic (k : Int) (hk : 0 < k) (net : Network)
    (hnet : net.type = "cosmos") (n : Nat) (acct : Account)
    (h0 : acct.rpc_down = 0) :
    (runWallet parseFloat64 k net acct (List.replicate n .fail)
        = .ok ({ acct with rpc_down := n }, expectedFailAlerts k 0 n))
    ∧ (∀ i, i < n → (expectedFailAlerts k 0 n)[i]?
        = some (if ((i : Int) + 1) % k = 0 then [Alert.rpcBad] else []))
    ∧ (∀ (acct2 : Account) (s : String) (b : ℚ), parseFloat64 s = some b →
        rpcDownOf (walletCycle parseFloat64 k net acct2 .fail
            (.ok ⟨[⟨net.denom, s⟩]⟩))
          = some 0) := by
  refine ⟨?_, ?_, ?_⟩
  · have h := runWallet_replicate_fail parseFloat64 k hk net hnet n acct (by omega)
    rw [h0] at h
    simpa using h
  · intro i hi
    rw [expectedFailAlerts_getElem k n 0 i hi]
    simp
  · intro acct2 s b hs
    exact walletCycle_success_resets parseFloat64 k net hnet acct2 s b hs

theorem c1_health_alert_periodic_witness :
    (0 : Int) < 3 ∧ cNet.type = "cosmos" ∧ cAcct.rpc_down = 0 ∧
    runWallet parseFloat64 3 cNet cAcct (List.replicate 7 .fail)
      = .ok ({ cAcct with rpc_down := 7 },
          [[], [], [Alert.rpcBad], [], [], [Alert.rpcBad], []]) ∧
    parseFloat64 "5" = some 5 ∧
    rpcDownOf (walletCycle parseFloat64 3 cNet
        ⟨"cosmos1abc", "relayer", 2000000, 9, false⟩ .fail
        (.ok ⟨[⟨"uatom", "5"⟩]⟩))
      = some 0 :=
  ⟨by decide, rfl, rfl,
    ((c1_health_alert_periodic 3 (by decide) cNet rfl 7 cAcct rfl).1).trans
      (by decide),
    by decide,
    (c1_health_alert_periodic 3 (by decide) cNet rfl 7 cAcct rfl).2.2
      ⟨"cosmos1abc", "relayer", 2000000, 9, false⟩ "5" 5 (by decide)⟩

/-! ### The balance threshold-crossing machine -/

/-- C2: the balance monitor is edge-triggered.  From the `Above` state a
cycle emits exactly a low-funds alert when the balance drops below the
threshold and nothing otherwise; from the `Below` state it emits exactly
a replenished alert when the balance rises strictly above the threshold
and nothing otherwise; over any run of validated balances the emitted
balance alerts strictly alternate with the tracked state (so at most one
alert per crossing and no alert without a crossing); and the concrete
scenario with threshold 2000000 and balances
[3000000, 1000000, 1000000, 2500000] emits none, "low", none,
"replenished". -/
theorem c2_balance_edge_triggered :
    (∀ (t b : ℚ), balanceAlertStep b t false
        = if b < t then (true, [Alert.balLow]) else (false, [])) ∧
    (∀ (t b : ℚ), balanceAlertStep b t true
        = if t < b then (false, [Alert.balGood]) else (true, [])) ∧
    (∀ (t : ℚ) (d : Bool) (bs : List ℚ),
        Alternates d (runBalanceAlerts t d bs).2.flatten) ∧
    runWallet parseFloat64 48 cNet cAcct
        (List.map (fun a => FetchResult.ok ⟨[⟨"uatom", a⟩]⟩)
          ["3000000", "1000000", "1000000", "2500000"])
      = .ok (cAcct, [[], [Alert.balLow], [], [Alert.balGood]]) := by
  have hAbove : ∀ (t b : ℚ), balanceAlertStep b t false
      = if b < t then (true, [Alert.balLow]) else (false, []) := by
    intro t b
    by_cases h : b < t <;> simp [balanceAlertStep, h]
  have hBelow : ∀ (t b : ℚ), balanceAlertStep b t true
      = if t < b then (false, [Alert.balGood]) else (true, []) := by
    intro t b
    by_cases h : b < t
    · simp [balanceAlertStep, h, if_neg (lt_asymm h)]
    · by_cases h2 : t < b <;> simp [balanceAlertStep, h, h2]
  refine ⟨hAbove, hBelow, ?_, by decide⟩
  intro t d bs
  induction bs generalizing d with
  | nil => simp [runBalanceAlerts, Alternates]
  | cons b bs ih =>
    cases d with
    | false =>
      by_cases h : b < t
      · simp [runBalanceAlerts, hAbove, h, Alternates, ih true]
      · simp [runBalanceAlerts, hAbove, h, Alternates, ih false]
    | true =>
      by_cases h : t < b
      · simp [runBalanceAlerts, hBelow, h, Alternates, ih false]
      · simp [runBalanceAlerts, hBelow, h, Alternates, ih true]

/-- C4: a network whose `bad_request_threshold` is smaller than the poll
interval derives `THRESHOLD = 0`, and the first failed cycle then hits
the modulus in `check_rpc_health` with a zero divisor, which in Go is a
runtime panic (integer divide by zero) that kills the process — the
condition is not treated as alert-on-every-failure. -/
theorem c4_zero_threshold_divide_by_zero :
    THRESHOLDof (1/5) (1/2) = 0 ∧
    check_rpc_health 0 1 = .panic .divideByZero ∧
    walletCycle parseFloat64 0 cNet cAcct .fail .fail
      = .panic .divideByZero := by
  refine ⟨?_, by decide, by decide⟩
  unfold THRESHOLDof goTrunc
  norm_num

/-- C5 counterexample: with the wallet in the `Below` state and a
validated balance exactly equal to the threshold, the code emits no
alert and leaves `belowThreshold` set, instead of treating the exact
crossing as a restore. -/
theorem c5_equality_counterexample :
    walletCycle parseFloat64 48 cNet cAcctBelow .fail
        (.ok ⟨[⟨"uatom", "2000000"⟩]⟩)
      = .ok (cAcctBelow, []) ∧
    walletCycle parseFloat64 48 cNet cAcctBelow .fail
        (.ok ⟨[⟨"uatom", "2000000"⟩]⟩)
      ≠ .ok ({ cAcctBelow with down := false }, [Alert.balGood]) :=
  ⟨by decide, by decide⟩

/-- C5 amended: from the `Below` state, a validated balance strictly
above the threshold emits exactly one replenished alert and clears
`belowThreshold`; a balance exactly equal to the threshold emits no
alert and leaves the wallet in the `Below` state. -/
theorem c5_strict_restore_amended (b t : ℚ) :
    (t < b → balanceAlertStep b t true = (false, [Alert.balGood])) ∧
    (b = t → balanceAlertStep b t true = (true, [])) := by
  constructor
  · intro h
    simp [balanceAlertStep, h, if_neg (lt_asymm h)]
  · intro h
    subst h
    simp [balanceAlertStep, lt_irrefl]

theorem c5_strict_restore_amended_witness :
    (2000000 : ℚ) < 2500000 ∧
    balanceAlertStep 2500000 2000000 true = (false, [Alert.balGood]) :=
  ⟨by decide, (c5_strict_restore_amended 2500000 2000000).1 (by decide)⟩

/-! ### Extraction failure modes -/

theorem parseGo_no_match (parse : String → Option ℚ) (d : String) :
    ∀ (l : List Response) (bal : ℚ), (∀ r ∈ l, r.denom ≠ d) →
      parseGo parse d l bal false = (0, some ParseErr.mismatch, false) := by
  intro l
  induction l with
  | nil => intro bal h; rfl
  | cons r rest ih =>
    intro bal h
    have hr : r.denom ≠ d := h r (List.mem_cons_self r rest)
    simp only [parseGo, if_neg hr]
    exact ih bal (fun x hx => h x (List.mem_cons_of_mem r hx))

theorem parseGo_malformed (parse : String → Option ℚ) (d : String) :
    ∀ (l : List Response) (bal : ℚ) (rg : Bool),
      (∃ r ∈ l, r.denom = d ∧ parse r.amount = none) →
      (parseGo parse d l bal rg).2.1 = some ParseErr.malformed := by
  intro l
  induction l with
  | nil => intro bal rg h; simp at h
  | cons r rest ih =>
    intro bal rg h
    by_cases hd : r.denom = d
    · simp only [parseGo, if_pos hd]
      cases hp : parse r.amount with
      | none => rfl
      | some b =>
        apply ih
        rcases h with ⟨x, hx, hxd, hxp⟩
        rcases List.mem_cons.mp hx with h1 | h1
        · subst h1
          rw [hp] at hxp
          exact absurd hxp (by simp)
        · exact ⟨x, h1, hxd, hxp⟩
    · simp only [parseGo, if_neg hd]
      apply ih
      rcases h with ⟨x, hx, hxd, hxp⟩
      rcases List.mem_cons.mp hx with h1 | h1
      · subst h1; exact absurd hxd hd
      · exact ⟨x, h1, hxd, hxp⟩

theorem walletCycle_parse_error_increments (parse : String → Option ℚ)
    (k : Int) (hk : k ≠ 0) (net : Network) (hnet : net.type = "cosmos")
    (acct : Account) (rs : Responses)
    (h : (parseBalanceResponse parse rs net).2.1 ≠ none) :
    rpcDownOf (walletCycle parse k net acct .fail (.ok rs))
      = some (acct.rpc_down + 1) := by
  obtain ⟨e, he⟩ := Option.ne_none_iff_exists'.mp h
  simp only [walletCycle, hnet, dispatchFetch_cosmos_ok]
  rw [he]
  simp [failBranch, check_rpc_health, hk, rpcDownOf]

/-- C6: extraction of a response with no entry matching the network
denom always returns the `mismatch` error (with the zero balance
accompanied by that error, never silently); a matching entry whose
amount fails to parse yields the distinct `malformed` error; and any
extraction error makes the cycle take the failure path, incrementing the
consecutive-failure counter. -/
theorem c6_extraction_error_model (parse : String → Option ℚ)
    (rs : Responses) (net : Network) (k : Int) (acct : Account)
    (hk : k ≠ 0) (hnet : net.type = "cosmos") :
    ((∀ r ∈ rs.balances, r.denom ≠ net.denom) →
        parseBalanceResponse parse rs net
          = (0, some ParseErr.mismatch, false)) ∧
    ((∃ r ∈ rs.balances, r.denom = net.denom ∧ parse r.amount = none) →
        (parseBalanceResponse parse rs net).2.1 = some ParseErr.malformed) ∧
    (ParseErr.mismatch ≠ ParseErr.malformed) ∧
    ((parseBalanceResponse parse rs net).2.1 ≠ none →
        rpcDownOf (walletCycle parse k net acct .fail (.ok rs))
          = some (acct.rpc_down + 1)) := by
  refine ⟨?_, ?_, by decide, ?_⟩
  · intro h
    exact parseGo_no_match parse net.denom rs.balances 0 h
  · intro h
    exact parseGo_malformed parse net.denom rs.balances 0 false h
  · intro h
    exact walletCycle_parse_error_increments parse k hk net hnet acct rs h

/-- Response used by the C6 witness: the matching entry has a
non-numeric amount. -/
def wRs : Responses := ⟨[⟨"uosmo", "5"⟩, ⟨"uatom", "abc"⟩]⟩

/-- Response used by the C6 witness: no entry matches the denom. -/
def wRsNone : Responses := ⟨[⟨"uosmo", "5"⟩]⟩

theorem c6_extraction_error_model_witness :
    (3 : Int) ≠ 0 ∧ cNet.type = "cosmos" ∧
    parseBalanceResponse parseFloat64 wRsNone cNet
      = (0, some ParseErr.mismatch, false) ∧
    (parseBalanceResponse parseFloat64 wRs cNet).2.1
      = some ParseErr.malformed ∧
    rpcDownOf (walletCycle parseFloat64 3 cNet cAcct .fail (.ok wRs))
      = some 1 :=
  ⟨by decide, rfl,
    (c6_extraction_error_model parseFloat64 wRsNone cNet 3 cAcct (by decide)
      rfl).1 (by decide),
    (c6_extraction_error_model parseFloat64 wRs cNet 3 cAcct (by decide)
      rfl).2.1 ⟨⟨"uatom", "abc"⟩, by decide, rfl, by decide⟩,
    (c6_extraction_error_model parseFloat64 wRs cNet 3 cAcct (by decide)
      rfl).2.2.2 (by decide)⟩

/-- C7: on a network whose type is neither "ethereum" nor "cosmos" the
dispatch takes no branch, leaving `responses` nil and `err` nil, and the
cycle then dereferences the nil response inside `parseBalanceResponse`
— a runtime panic that crashes the process, not a Failed outcome. -/
theorem c7_unsupported_type_nil_panic (net : Network)
    (h1 : net.type ≠ "ethereum") (h2 : net.type ≠ "cosmos") (k : Int)
    (acct : Account) (eth cos : FetchResult) :
    walletCycle parseFloat64 k net acct eth cos = .panic .nilDereference := by
  simp [walletCycle, dispatchFetch, h1, h2]

/-- A concrete network of an unsupported chain kind. -/
def solNet : Network := ⟨"solana", "solana", "url", [], 1, 24, "usol", "solana"⟩

theorem c7_unsupported_type_nil_panic_witness :
    solNet.type ≠ "ethereum" ∧ solNet.type ≠ "cosmos" ∧
    walletCycle parseFloat64 48 solNet cAcct .fail .fail
      = .panic .nilDereference :=
  ⟨by decide, by decide,
    c7_unsupported_type_nil_panic solNet (by decide) (by decide) 48 cAcct
      .fail .fail⟩

/-! ### The reload merge -/

theorem copyAccounts_eq :
    ∀ (inc prev : List Account), inc.length ≤ prev.length →
      copyAccounts prev inc = some (List.zipWith setRuntime prev inc) := by
  intro inc
  induction inc with
  | nil =>
    intro prev h
    rw [List.zipWith_nil_right]
    cases prev <;> rfl
  | cons a rest ih =>
    intro prev h
    cases prev with
    | nil => simp at h
    | cons p ps =>
      simp only [copyAccounts, List.zipWith]
      rw [ih ps (by simpa using h)]
      rfl

theorem copyNetworks_eq :
    ∀ (inc prev : List Network), inc.length ≤ prev.length →
      (∀ pr ∈ List.zip prev inc, pr.2.accounts.length ≤ pr.1.accounts.length) →
      copyNetworks prev inc = some (List.zipWith mergeNet prev inc) := by
  intro inc
  induction inc with
  | nil =>
    intro prev h1 h2
    rw [List.zipWith_nil_right]
    cases prev <;> rfl
  | cons n ns ih =>
    intro prev h1 h2
    cases prev with
    | nil => simp at h1
    | cons p ps =>
      have hacc : n.accounts.length ≤ p.accounts.length := by
        refine h2 (p, n) ?_
        rw [List.zip_cons_cons]
        exact List.mem_cons_self _ _
      simp only [copyNetworks]
      rw [copyAccounts_eq n.accounts p.accounts hacc]
      rw [ih ps (by simpa using h1) (fun pr hpr => by
        refine h2 pr ?_
        rw [List.zip_cons_cons]
        exact List.mem_cons_of_mem _ hpr)]
      simp [mergeNet]

/-- C3 amended: provided every (networkIndex, walletIndex) position of
the incoming configuration also exists in the previous one, the merge
returns the incoming configuration with `down` and `rpc_down` copied
positionally from the previous snapshot and every other incoming field
kept; when the incoming configuration contains a position absent from
the previous one, the Go code instead panics with an index-out-of-range
error and returns nothing. -/
theorem c3_reload_merge_amended (current incoming : Networks)
    (hlen : incoming.network.length ≤ current.network.length)
    (hacc : ∀ pr ∈ List.zip current.network incoming.network,
        pr.2.accounts.length ≤ pr.1.accounts.length) :
    checkConfigUpdates current incoming
      = some ⟨List.zipWith mergeNet current.network incoming.network⟩ := by
  unfold checkConfigUpdates
  rw [copyNetworks_eq incoming.network current.network hlen hacc]
  rfl

/-- Previous-cycle account: runtime state `rpc_down = 5`, `down = true`. -/
def mAcctPrev : Account := ⟨"cosmos1abc", "relayer", 100, 5, true⟩

/-- Incoming account at the same position with a changed
`balance_threshold` and default runtime fields. -/
def mAcctInc : Account := ⟨"cosmos1abc", "relayer", 200, 0, false⟩

/-- Previous-cycle network holding `mAcctPrev`. -/
def mNetPrev : Network :=
  ⟨"evmos", "cosmos", "url", [mAcctPrev], 1, 24, "aevmos", "evmos"⟩

/-- Incoming network holding `mAcctInc` at the same position. -/
def mNetInc : Network :=
  ⟨"evmos", "cosmos", "url", [mAcctInc], 1, 24, "aevmos", "evmos"⟩

/-- Incoming network that grew by one wallet. -/
def mNetIncGrown : Network :=
  ⟨"evmos", "cosmos", "url",
    [mAcctInc, ⟨"cosmos1xyz", "backup", 50, 0, false⟩],
    1, 24, "aevmos", "evmos"⟩

/-- C3 counterexample: position (0, 0) is present in both the previous
and the incoming configuration, yet because the incoming network has one
extra wallet the merge indexes past the end of the previous account
slice and panics, so it does not return the incoming configuration (nor
anything else). -/
theorem c3_reload_merge_counterexample :
    checkConfigUpdates ⟨[mNetPrev]⟩ ⟨[mNetIncGrown]⟩ = none := by decide

theorem c3_reload_merge_amended_witness :
    (⟨[mNetInc]⟩ : Networks).network.length
        ≤ (⟨[mNetPrev]⟩ : Networks).network.length ∧
    checkConfigUpdates ⟨[mNetPrev]⟩ ⟨[mNetInc]⟩
      = some ⟨[⟨"evmos", "cosmos", "url",
          [⟨"cosmos1abc", "relayer", 200, 5, true⟩],
          1, 24, "aevmos", "evmos"⟩]⟩ :=
  ⟨by decide,
    (c3_reload_merge_amended ⟨[mNetPrev]⟩ ⟨[mNetInc]⟩ (by decide)
      (by decide)).trans (by decide)⟩

/-! ### The Ethereum fetch -/

/-- C8: the Ethereum fetch propagates transport, read and JSON-decoding
errors as failures, but it never reads the HTTP status code (the result
is identical for any two statuses), and a decodable payload carrying an
RPC error object and no result is answered with a fabricated zero
balance and no error instead of a failure. -/
theorem c8_eth_fetch_not_failed (s1 s2 : Nat) (u : Option EthRPCResponse) :
    getEthereumBalance .postErr = none ∧
    getEthereumBalance .readErr = none ∧
    getEthereumBalance (.body s1 none) = none ∧
    getEthereumBalance (.body s1 u) = getEthereumBalance (.body s2 u) ∧
    getEthereumBalance (.body 500 (some ⟨1, "", some ⟨-32000, "out of gas"⟩⟩))
      = some ⟨[⟨"wei", "0"⟩]⟩ := by
  refine ⟨rfl, rfl, rfl, ?_, by decide⟩
  cases u <;> rfl

/-! ### Exactness of the decimal integer-string representation -/

theorem charToDigit_digitChar :
    ∀ d, d < 10 → charToDigit (digitChar d) = some d := by decide

theorem decGo_map_digits :
    ∀ (L : List Nat), (∀ d ∈ L, d < 10) → ∀ acc,
      decGo (L.map digitChar) acc
        = some (L.foldl (fun a d => a * 10 + d) acc) := by
  intro L
  induction L with
  | nil => intro h acc; rfl
  | cons d ds ih =>
    intro h acc
    have hd : d < 10 := h d (List.mem_cons_self d ds)
    simp only [List.map_cons, decGo, charToDigit_digitChar d hd]
    exact ih (fun x hx => h x (List.mem_cons_of_mem d hx)) (acc * 10 + d)

theorem decDigitsAux_lt :
    ∀ (fuel n : Nat), ∀ d ∈ decDigitsAux fuel n, d < 10 := by
  intro fuel
  induction fuel with
  | zero => intro n d hd; simp [decDigitsAux] at hd
  | succ m ih =>
    intro n d hd
    by_cases h : n = 0
    · simp [decDigitsAux, h] at hd
    · simp only [decDigitsAux, if_neg h] at hd
      rcases List.mem_cons.mp hd with h1 | h1
      · subst h1; exact Nat.mod_lt n (by omega)
      · exact ih (n / 10) d h1

theorem decDigitsAux_foldl :
    ∀ (fuel n : Nat), n ≤ fuel → ∀ acc,
      (decDigitsAux fuel n).reverse.foldl (fun a d => a * 10 + d) acc
        = acc * 10 ^ (decDigitsAux fuel n).length + n := by
  intro fuel
  induction fuel with
  | zero =>
    intro n h acc
    interval_cases n
    simp [decDigitsAux]
  | succ m ih =>
    intro n h acc
    by_cases h0 : n = 0
    · simp [decDigitsAux, h0]
    · simp only [decDigitsAux, if_neg h0, List.reverse_cons, List.foldl_append,
        List.length_cons]
      rw [ih (n / 10) (by omega) acc]
      simp only [List.foldl]
      have hdm : n / 10 * 10 + n % 10 = n := by omega
      calc (acc * 10 ^ (decDigitsAux m (n / 10)).length + n / 10) * 10 + n % 10
          = acc * (10 ^ (decDigitsAux m (n / 10)).length * 10)
              + (n / 10 * 10 + n % 10) := by ring
        _ = acc * 10 ^ ((decDigitsAux m (n / 10)).length + 1) + n := by
            rw [hdm, pow_succ]

theorem parseDecNat_mk (l : List Char) (h : l ≠ []) :
    parseDecNat ⟨l⟩ = decGo l 0 := by
  cases l with
  | nil => exact absurd rfl h
  | cons c cs => rfl

theorem parseDecNat_natToDecStr (n : Nat) :
    parseDecNat (natToDecStr n) = some n := by
  by_cases h0 : n = 0
  · subst h0; rfl
  · have hne : decDigitsAux (n + 1) n ≠ [] := by
      simp [decDigitsAux, h0]
    simp only [natToDecStr, if_neg h0]
    rw [parseDecNat_mk _ (by simpa using hne)]
    rw [decGo_map_digits _ (fun d hd =>
      decDigitsAux_lt (n + 1) n d (List.mem_reverse.mp hd)) 0]
    rw [decDigitsAux_foldl (n + 1) n (by omega) 0]
    simp

/-- C9: the base-10 integer-string representation produced for a fetched
balance is exact: decoding the decimal string of any natural number
recovers that number, with no precision limit; in particular the
Ethereum fetch converts the hex balance 0xde0b6b3a7640000 — which
exceeds 2^53 — to exactly "1000000000000000000". -/
theorem c9_decimal_roundtrip :
    (∀ n : Nat, parseDecNat (natToDecStr n) = some n) ∧
    getEthereumBalance (.body 200 (some ⟨1, "0xde0b6b3a7640000", none⟩))
      = some ⟨[⟨"wei", "1000000000000000000"⟩]⟩ ∧
    parseDecNat "1000000000000000000" = some 1000000000000000000 ∧
    2 ^ 53 < 1000000000000000000 :=
  ⟨parseDecNat_natToDecStr, by decide, by decide, by decide⟩

/-! ### Double-precision collapse of large balances -/

/-- C10: the extraction step parses amount strings into 64-bit floats
and the monitor compares that float against the float threshold, so the
two distinct integer balances 2^53 and 2^53 + 1 (both at the 2^53
precision boundary) parse to the same float and every monitor decision
— for any threshold and any account state — is identical for the two
balance strings. -/
theorem c10_float_precision_collapse :
    parseDecNat "9007199254740992" = some (2 ^ 53) ∧
    parseDecNat "9007199254740993" = some (2 ^ 53 + 1) ∧
    parseFloat64 "9007199254740992" = parseFloat64 "9007199254740993" ∧
    ∀ (k : Int) (acct : Account),
      walletCycle parseFloat64 k cNet acct .fail
          (.ok ⟨[⟨"uatom", "9007199254740992"⟩]⟩)
        = walletCycle parseFloat64 k cNet acct .fail
          (.ok ⟨[⟨"uatom", "9007199254740993"⟩]⟩) := by
  refine ⟨by decide, by decide, by decide, ?_⟩
  intro k acct
  have h : parseBalanceResponse parseFloat64 ⟨[⟨"uatom", "9007199254740992"⟩]⟩ cNet
      = parseBalanceResponse parseFloat64 ⟨[⟨"uatom", "9007199254740993"⟩]⟩ cNet := by
    decide
  simp only [walletCycle, show cNet.type = "cosmos" from rfl,
    dispatchFetch_cosmos_ok]
  rw [h]

end WalletBot
